import Mathlib

set_option maxRecDepth 2000

/-!
Shallow embedding of the job-processing core of `src/backend/server.py`
(editcue): directive parsing (`parse_prompt`), timestamp resolution
(`ts_to_seconds`), quality mapping (`quality_to_crf`), the storage
consistency guard (`head_with_retry`) and the job lifecycle run
(`process_job`).

Modelling conventions:
* Python strings are modelled as `List Char` (`PyStr`), with
  structurally-recursive counterparts of `str.split`, `str.strip`,
  `str.lower`, `str.startswith` and slicing, so that all definitions are
  executable and kernel-reducible.
* Python `float` values are modelled as `ℚ`; every arithmetic operation the
  code performs on the values appearing in the claims is exact in binary
  floating point, so `ℚ` is behaviourally faithful there.
* Python exceptions are modelled with `Option`/`Except`; a bare
  `try/except: pass` becomes a `match` that falls back to the previous value.
* External effects (database, object store, ffmpeg) are modelled as an
  explicit environment of oracles; `process_job` becomes a pure function
  from that environment to the list of job-record updates it performs.
-/

/-- Python strings, as character lists. -/
abbrev PyStr := List Char

deriving instance DecidableEq for Except

/-- Python `str.split(sep)` for a one-character separator: always returns
at least one piece, keeps empty pieces. -/
def pySplit (sep : Char) : PyStr → List PyStr
  | [] => [[]]
  | c :: rest =>
    let r := pySplit sep rest
    if c = sep then [] :: r
    else
      match r with
      | h :: t => (c :: h) :: t
      | [] => [[c]]

/-- The whitespace characters stripped by Python `str.strip()`. -/
def isPySpace (c : Char) : Bool :=
  c = ' ' || c = '\t' || c = '\n' || c = '\r' || c = '\x0b' || c = '\x0c'

/-- Python `str.strip()`. -/
def pyStrip (s : PyStr) : PyStr :=
  ((s.dropWhile isPySpace).reverse.dropWhile isPySpace).reverse

/-- Python `str.lower()` (ASCII case mapping, which is all the source
feeds it). -/
def pyLower (s : PyStr) : PyStr :=
  s.map Char.toLower

/-- Python `s.startswith(p)`. -/
def pyStartswith (p s : PyStr) : Bool :=
  p.isPrefixOf s

/-- Digits of a decimal numeral to a natural number. -/
def digitsToNat (cs : PyStr) : Nat :=
  cs.foldl (fun n c => n * 10 + (c.toNat - 48)) 0

/-- Model of Python `float(s)` restricted to decimal numerals: optional
surrounding whitespace, optional sign, `digits`, `digits.digits`,
`digits.` or `.digits`.  (The exotic forms `inf`/`nan`/exponents that
Python also accepts never arise in this code's inputs and are modelled as
failures.)  Returns `none` where Python raises `ValueError`. -/
def pyFloat (s : PyStr) : Option ℚ :=
  let t := pyStrip s
  let signBody : ℚ × PyStr :=
    match t with
    | '-' :: rest => (-1, rest)
    | '+' :: rest => (1, rest)
    | _ => (1, t)
  let sgn := signBody.1
  let body := signBody.2
  let intPart := body.takeWhile (fun c => c ≠ '.')
  match body.dropWhile (fun c => c ≠ '.') with
  | [] =>
    if !intPart.isEmpty && intPart.all Char.isDigit then
      some (sgn * (digitsToNat intPart : ℚ))
    else none
  | _ :: frac =>
    if intPart.all Char.isDigit && frac.all Char.isDigit
        && (!intPart.isEmpty || !frac.isEmpty) then
      some (sgn * ((digitsToNat intPart : ℚ)
        + (digitsToNat frac : ℚ) / (10 ^ frac.length)))
    else none

/-- Model of Python `int(s)`: optional whitespace, optional sign, digits.
Returns `none` where Python raises `ValueError`. -/
def pyInt (s : PyStr) : Option Int :=
  let t := pyStrip s
  let signBody : Int × PyStr :=
    match t with
    | '-' :: rest => (-1, rest)
    | '+' :: rest => (1, rest)
    | _ => (1, t)
  let body := signBody.2
  if !body.isEmpty && body.all Char.isDigit then
    some (signBody.1 * (digitsToNat body : Int))
  else none

/-- `ts_to_seconds` (server.py:780-796): strip, split on `":"`, then
`SS` / `MM:SS` / `HH:MM:SS`; any other field count, or an unparsable
field, raises (`none`). -/
def ts_to_seconds (ts : PyStr) : Option ℚ :=
  match pySplit ':' (pyStrip ts) with
  | [s0] => pyFloat s0
  | [mm, ss] => do
    let m ← pyFloat mm
    let s ← pyFloat ss
    some (m * 60 + s)
  | [hh, mm, ss] => do
    let h ← pyFloat hh
    let m ← pyFloat mm
    let s ← pyFloat ss
    some (h * 3600 + m * 60 + s)
  | _ => none

/-- `quality_to_crf` (server.py:798-801): `(quality or "medium").lower()`
looked up in `{"high": 20, "medium": 23, "low": 28}` with default 23.
Python's `None` quality is modelled as the empty string (both are falsy). -/
def quality_to_crf (quality : PyStr) : Int :=
  let q := pyLower (if quality.isEmpty then "medium".toList else quality)
  if q = "high".toList then 20
  else if q = "medium".toList then 23
  else if q = "low".toList then 28
  else 23

/-- One parsed `keep:` segment (server.py:756-760). -/
structure Segment where
  index : Int
  start : PyStr
  stop : PyStr
deriving DecidableEq, Repr

/-- The dict built by `parse_prompt` (server.py:738-743). -/
structure EditPlan where
  segments : List Segment
  order : List Int
  output_format : PyStr
  quality : PyStr
deriving DecidableEq, Repr

/-- Segments of one `keep:` clause: the loop
`for i, part in enumerate(parts)` (server.py:752-760), with the running
`enumerate` counter made explicit.  A part without exactly one `-` is
skipped while the counter still advances. -/
def keepSegsAux (i : Nat) : List PyStr → List Segment
  | [] => []
  | part :: rest =>
    if part.contains '-' then
      match pySplit '-' part with
      | [t0, t1] =>
        { index := (i : Int) + 1, start := pyStrip t0, stop := pyStrip t1 }
          :: keepSegsAux (i + 1) rest
      | _ => keepSegsAux (i + 1) rest
    else keepSegsAux (i + 1) rest

/-- The whole `keep:` branch (server.py:748-760) applied to a stripped
clause beginning with `keep:`. -/
def parseKeepClause (line : PyStr) : List Segment :=
  let segments_str := pyStrip (line.drop 5)
  keepSegsAux 0 ((pySplit ',' segments_str).map pyStrip)

/-- The `order:` branch's list comprehension
`[int(x.strip()) for x in order_str.split(',')]` (server.py:764): the
first unparsable entry aborts the whole list with an exception. -/
def ordListE (order_str : PyStr) : Except PyStr (List Int) :=
  (pySplit ',' order_str).mapM fun x =>
    match pyInt (pyStrip x) with
    | some n => Except.ok n
    | none => Except.error ("invalid literal for int".toList)

/-- One iteration of the `for line in lines` loop of `parse_prompt`
(server.py:746-773).  The final assignment to `result["order"]`
(server.py:773) is indented at loop-body level in the source, so it
executes on EVERY iteration, after the `if`/`elif` chain. -/
def parsePromptBranch (result : EditPlan) (line : PyStr) : EditPlan :=
  if pyStartswith "keep:".toList (pyLower line) then
    { result with segments := result.segments ++ parseKeepClause line }
  else if pyStartswith "order:".toList (pyLower line) then
    match ordListE (pyStrip (line.drop 6)) with
    | Except.ok l => { result with order := l }
    | Except.error _ => result
  else if pyStartswith "output:".toList (pyLower line) then
    { result with output_format := pyLower (pyStrip (line.drop 7)) }
  else if pyStartswith "quality:".toList (pyLower line) then
    { result with quality := pyLower (pyStrip (line.drop 8)) }
  else result

/-- One full loop iteration: the branch on the stripped line, then the
mis-indented overwrite of `result["order"]` (server.py:773). -/
def parsePromptStep (result : EditPlan) (line0 : PyStr) : EditPlan :=
  { parsePromptBranch result (pyStrip line0) with
    order := (parsePromptBranch result (pyStrip line0)).segments.map Segment.index }

/-- Initial `result` dict of `parse_prompt` (server.py:738-743). -/
def initPlan : EditPlan :=
  { segments := [], order := [], output_format := "mp4".toList,
    quality := "medium".toList }

/-- `parse_prompt` (server.py:736-775): strip, split on `"."`, fold the
per-line step over the clauses. -/
def parse_prompt (prompt_text : PyStr) : EditPlan :=
  (pySplit '.' (pyStrip prompt_text)).foldl parsePromptStep initPlan

/-- Exception-explicit rendering of one loop iteration: the only raise
site is `int()` inside the `try`, and the bare `except: pass`
(server.py:763-766) catches it, restoring the previous `result`. -/
def parsePromptBranchE (result : EditPlan) (line : PyStr) : Except PyStr EditPlan :=
  if pyStartswith "keep:".toList (pyLower line) then
    Except.ok { result with segments := result.segments ++ parseKeepClause line }
  else if pyStartswith "order:".toList (pyLower line) then
    match ordListE (pyStrip (line.drop 6)) with
    | Except.ok l => Except.ok { result with order := l }
    | Except.error _ => Except.ok result
  else if pyStartswith "output:".toList (pyLower line) then
    Except.ok { result with output_format := pyLower (pyStrip (line.drop 7)) }
  else if pyStartswith "quality:".toList (pyLower line) then
    Except.ok { result with quality := pyLower (pyStrip (line.drop 8)) }
  else Except.ok result

/-- Exception-explicit full loop iteration: an error in the branch would
propagate past the order-overwrite line. -/
def parsePromptStepE (result : EditPlan) (line0 : PyStr) : Except PyStr EditPlan :=
  match parsePromptBranchE result (pyStrip line0) with
  | Except.ok r => Except.ok { r with order := r.segments.map Segment.index }
  | Except.error e => Except.error e

/-- Exception-explicit `parse_prompt`: an uncaught exception in any
iteration would propagate out of the fold. -/
def parsePromptE (prompt_text : PyStr) : Except PyStr EditPlan :=
  (pySplit '.' (pyStrip prompt_text)).foldlM parsePromptStepE initPlan

/-- Outcome of one `s3.head_object` probe: success, or a botocore
`ClientError` carrying an error code. -/
inductive ProbeResult
  | ok
  | clientError (code : PyStr)
deriving DecidableEq, Repr

/-- How a `head_with_retry` call ends: the probed object was seen, a
non-retryable `ClientError` was re-raised, or all attempts were
exhausted (`RuntimeError("Object not found after retries: ...")`). -/
inductive HeadOutcome
  | success
  | raised (code : PyStr)
  | notVisible
deriving DecidableEq, Repr

/-- Result of a `head_with_retry` run: its outcome, the successive
`asyncio.sleep` delays (seconds, exact values), and how many probes were
issued. -/
structure HeadRun where
  outcome : HeadOutcome
  sleeps : List ℚ
  probes : Nat
deriving DecidableEq, Repr

/-- The codes treated as "not found" (server.py:811). -/
def notFoundCodes : List PyStr :=
  ["404".toList, "NoSuchKey".toList, "NotFound".toList]

/-- The retry loop of `head_with_retry` (server.py:805-815): `probe i` is
the result of the `(i+1)`-th `s3.head_object` call, `delay` the current
backoff, and the `Nat` argument the remaining attempts. -/
def headRetryAux (probe : Nat → ProbeResult) (i : Nat) (delay : ℚ) :
    Nat → HeadRun
  | 0 => { outcome := HeadOutcome.notVisible, sleeps := [], probes := 0 }
  | remaining + 1 =>
    match probe i with
    | ProbeResult.ok => { outcome := HeadOutcome.success, sleeps := [], probes := 1 }
    | ProbeResult.clientError code =>
      if code ∈ notFoundCodes then
        let r := headRetryAux probe (i + 1) (min (delay * 2) 3) remaining
        { outcome := r.outcome, sleeps := delay :: r.sleeps, probes := r.probes + 1 }
      else { outcome := HeadOutcome.raised code, sleeps := [], probes := 1 }

/-- `head_with_retry` (server.py:803-816): initial delay 0.4s, doubling
capped at 3.0s, default 6 attempts. -/
def head_with_retry (probe : Nat → ProbeResult) (attempts : Nat := 6) : HeadRun :=
  headRetryAux probe 0 (2/5) attempts

/-- The delay schedule the loop follows from a given starting delay:
each retry sleeps the current delay, then doubles it, capped at 3. -/
def delaySchedule (delay : ℚ) : Nat → List ℚ
  | 0 => []
  | n + 1 => delay :: delaySchedule (min (delay * 2) 3) n

/-- One per-segment instruction of the compiled filter graph
(server.py:890-891): a video trim or an audio trim of the single input
stream, from `s` to `e` seconds, each with its `setpts=PTS-STARTPTS`
(resp. `asetpts`) timestamp reset, labelled `[v i]` (resp. `[a i]`). -/
inductive FilterOp
  | vtrim (i : Nat) (s e : ℚ)
  | atrim (i : Nat) (s e : ℚ)
deriving DecidableEq, Repr

/-- The per-segment loop of the filter-graph construction
(server.py:882-894), with the loop counter explicit: resolves both
timestamps (raising on failure), checks `e <= s`
(`RuntimeError("Invalid segment: ...")`), and emits the video-trim and
audio-trim pair plus the `[v i][a i]` concat input.  The final
`filter_complex` string is the `;`-join of the parts followed by
`concat=n=N:v=1:a=1[outv][outa]` over the recorded concat inputs. -/
def buildFilterAux (i : Nat) : List Segment → Except PyStr (List FilterOp × List Nat)
  | [] => Except.ok ([], [])
  | seg :: rest =>
    match ts_to_seconds seg.start with
    | none => Except.error ("Invalid timestamp: ".toList ++ seg.start)
    | some s =>
      match ts_to_seconds seg.stop with
      | none => Except.error ("Invalid timestamp: ".toList ++ seg.stop)
      | some e =>
        if e ≤ s then
          Except.error ("Invalid segment: ".toList ++ seg.start ++ "-".toList ++ seg.stop)
        else
          match buildFilterAux (i + 1) rest with
          | Except.error msg => Except.error msg
          | Except.ok (ps, cs) =>
            Except.ok (FilterOp.vtrim i s e :: FilterOp.atrim i s e :: ps, i :: cs)

/-- Filter-graph compilation for the whole ordered segment list. -/
def buildFilter (ordered : List Segment) : Except PyStr (List FilterOp × List Nat) :=
  buildFilterAux 0 ordered

/-- Persisted job statuses (server.py:830, 941, 959). -/
inductive JobStatus
  | queued
  | processing
  | done
  | failed
deriving DecidableEq, Repr

/-- One `db.jobs.update_one` call performed by `process_job`: the fields
of its `$set` document that the claims observe. -/
structure JobUpdate where
  status : JobStatus
  error_message : Option PyStr
  output_key : Option PyStr
deriving DecidableEq, Repr

/-- The `status: "processing"` update (server.py:830). -/
def processingUpdate : JobUpdate :=
  { status := JobStatus.processing, error_message := none, output_key := none }

/-- The video record fields `process_job` reads (server.py:833-861). -/
structure Video where
  object_key : PyStr
  extension : PyStr
deriving DecidableEq, Repr

/-- The job record fields `process_job` reads (server.py:825-864).
`parsed_prompt` is `none` when the field is missing/None
(`job.get("parsed_prompt") or {}`). -/
structure Job where
  user_id : PyStr
  video_id : PyStr
  parsed_prompt : Option EditPlan
deriving DecidableEq, Repr

/-- The `{}` fallback for a missing parsed prompt: every `.get` on it
yields None, modelled as empty strings / empty lists. -/
def emptyParsed : EditPlan :=
  { segments := [], order := [], output_format := [], quality := [] }

/-- Oracles for everything outside `process_job` itself: database
lookups, the object store, and the ffmpeg child process.  Each fallible
external call is an `Except` describing whether it raised. -/
structure Env where
  jobs : PyStr → Option Job
  videos : PyStr → Option Video
  headProbe : Nat → ProbeResult
  download : Except PyStr Unit
  downloadOk : Bool
  ffmpegExit : Int
  ffmpegStderr : PyStr
  outputOk : Bool
  upload : Except PyStr Unit
  verifyOutputHead : Except PyStr Unit

/-- The segment lookup `seg_map[idx]` (server.py:850): the dict
comprehension keeps the LAST segment with a given index.  (The key-presence
filter of the comprehension is vacuous here: every modelled segment has
all three keys.) -/
def seg_map_get (segments : List Segment) (idx : Int) : Option Segment :=
  (segments.filter (fun s => s.index = idx)).getLast?

/-- Lines 842-855 of `process_job`: the effective order
(`parsed.get("order") or [s.get("index") for s in segments]`, empty list
falsy) filtered to indices present in the segment map, preserving order. -/
def orderedOf (parsed : EditPlan) : List Segment :=
  let segments := parsed.segments
  let order := if parsed.order.isEmpty then segments.map Segment.index else parsed.order
  order.filterMap (seg_map_get segments)

/-- The body of `process_job`'s `try:` block after the `processing`
update (server.py:833-946), as a chain of matches: each external call
that raises short-circuits to `Except.error` with the message the
Python exception carries; the only `Except.ok` value is the final `done`
update.  (The unused `crf` computation, path construction and logging
are effect-free and elided.) -/
def processJobBody (env : Env) (job_id : PyStr) (job : Job) : Except PyStr JobUpdate :=
  match env.videos job.video_id with
  | none => Except.error ("Video not found".toList)
  | some video =>
    if (job.parsed_prompt.getD emptyParsed).segments.isEmpty then
      Except.error ("No segments found in prompt. Use: Keep: 00:00-00:10".toList)
    else
      if (orderedOf (job.parsed_prompt.getD emptyParsed)).isEmpty then
        Except.error ("Segment order invalid / no segments matched".toList)
      else
        match (head_with_retry env.headProbe 6).outcome with
        | HeadOutcome.raised code => Except.error ("ClientError: ".toList ++ code)
        | HeadOutcome.notVisible =>
          Except.error ("Object not found after retries: ".toList ++ video.object_key)
        | HeadOutcome.success =>
          match env.download with
          | Except.error m => Except.error m
          | Except.ok _ =>
            if !env.downloadOk then
              Except.error ("Input download failed / empty file".toList)
            else
              match buildFilter (orderedOf (job.parsed_prompt.getD emptyParsed)) with
              | Except.error m => Except.error m
              | Except.ok _ =>
                if env.ffmpegExit ≠ 0 then
                  Except.error ("ffmpeg failed: ".toList ++ env.ffmpegStderr.take 2000)
                else if !env.outputOk then
                  Except.error ("Output not created / empty".toList)
                else
                  match env.upload with
                  | Except.error m => Except.error m
                  | Except.ok _ =>
                    match env.verifyOutputHead with
                    | Except.error m => Except.error m
                    | Except.ok _ =>
                      Except.ok { status := JobStatus.done, error_message := none,
                                  output_key := some ("outputs/".toList ++ job.user_id
                                    ++ "/".toList ++ job_id ++ ".".toList
                                    ++ pyLower (if (job.parsed_prompt.getD
                                          emptyParsed).output_format.isEmpty
                                        then "mp4".toList
                                        else (job.parsed_prompt.getD
                                          emptyParsed).output_format)) }

/-- What one `process_job` run leaves behind: the `db.jobs.update_one`
calls in order, and whether the daily metrics counter was incremented. -/
structure RunResult where
  updates : List JobUpdate
  metricsIncremented : Bool
deriving DecidableEq, Repr

/-- `process_job` (server.py:818-972): missing job record returns with no
writes (server.py:826-828); otherwise the `processing` update is
persisted first, and the `try/except` boundary (server.py:954-963)
converts any raised error into the `failed` update.  The `finally:`
file cleanup touches only local temp files, never the job record. -/
def process_job (env : Env) (job_id : PyStr) : RunResult :=
  match env.jobs job_id with
  | none => { updates := [], metricsIncremented := false }
  | some job =>
    match processJobBody env job_id job with
    | Except.ok doneUpd =>
      { updates := [processingUpdate, doneUpd], metricsIncremented := true }
    | Except.error e =>
      { updates := [processingUpdate,
          { status := JobStatus.failed, error_message := some e, output_key := none }],
        metricsIncremented := false }

/-- Resolved `(start_seconds, end_seconds)` of a segment, for stating what
the compiled graph contains once both timestamps resolve. -/
def resolveSeg (seg : Segment) : ℚ × ℚ :=
  ((ts_to_seconds seg.start).getD 0, (ts_to_seconds seg.stop).getD 0)

/-- Spec-side shape of the per-segment trim operations: one video-trim and
one audio-trim per segment, in compiled order, positions numbered from
`i`. -/
def trimOpsSpec (i : Nat) : List (ℚ × ℚ) → List FilterOp
  | [] => []
  | (s, e) :: rest => FilterOp.vtrim i s e :: FilterOp.atrim i s e :: trimOpsSpec (i + 1) rest

/-- Spec-side shape of the concat inputs: the `n` consecutive positions
`i, i+1, ...` whose `[v_][a_]` pairs feed the single concatenation. -/
def concatInputsSpec (i : Nat) : Nat → List Nat
  | 0 => []
  | n + 1 => i :: concatInputsSpec (i + 1) n

/-- The probe sequence of the spec's Consistency-Guard scenario: the
object store reports not-found for the first 3 probes, then succeeds. -/
def exProbe (i : Nat) : ProbeResult :=
  if i < 3 then ProbeResult.clientError ("404".toList) else ProbeResult.ok

/-- A concrete parsed plan with one valid segment, for witnesses. -/
def exPlan : EditPlan :=
  { segments := [⟨1, "0".toList, "10".toList⟩], order := [1],
    output_format := "mp4".toList, quality := "medium".toList }

/-- A concrete job record, for witnesses. -/
def exJob : Job :=
  { user_id := "u1".toList, video_id := "v1".toList, parsed_prompt := some exPlan }

/-- A concrete video record, for witnesses. -/
def exVideo : Video :=
  { object_key := "uploads/v1.mp4".toList, extension := "mp4".toList }

/-- An environment in which every step up to ffmpeg succeeds and ffmpeg
exits with status 1 and diagnostics `"boom"`. -/
def exEnvFfmpegFail : Env :=
  { jobs := fun _ => some exJob
    videos := fun _ => some exVideo
    headProbe := fun _ => ProbeResult.ok
    download := Except.ok ()
    downloadOk := true
    ffmpegExit := 1
    ffmpegStderr := "boom".toList
    outputOk := true
    upload := Except.ok ()
    verifyOutputHead := Except.ok () }

/-- An environment with no job records at all. -/
def noJobEnv : Env :=
  { jobs := fun _ => none
    videos := fun _ => none
    headProbe := fun _ => ProbeResult.ok
    download := Except.ok ()
    downloadOk := false
    ffmpegExit := 0
    ffmpegStderr := []
    outputOk := false
    upload := Except.ok ()
    verifyOutputHead := Except.ok () }

/-- Whether a clause line takes the `keep:` branch of the parser loop. -/
def isKeepLine (l : PyStr) : Bool :=
  pyStartswith "keep:".toList (pyLower (pyStrip l))

/-! ### Parser structure lemmas -/

theorem parsePromptBranch_segments (r : EditPlan) (line : PyStr) :
    (parsePromptBranch r line).segments =
      r.segments
        ++ (if pyStartswith "keep:".toList (pyLower line) then parseKeepClause line
            else []) := by
  unfold parsePromptBranch
  cases h1 : pyStartswith "keep:".toList (pyLower line)
  · cases h2 : pyStartswith "order:".toList (pyLower line)
    · cases h3 : pyStartswith "output:".toList (pyLower line)
      · cases h4 : pyStartswith "quality:".toList (pyLower line)
        · simp
        · simp
      · simp
    · cases ho : ordListE (pyStrip (line.drop 6))
      · simp
      · simp
  · simp

theorem parsePromptStep_segments (r : EditPlan) (l : PyStr) :
    (parsePromptStep r l).segments =
      r.segments ++ (if isKeepLine l then parseKeepClause (pyStrip l) else []) := by
  unfold parsePromptStep isKeepLine
  exact parsePromptBranch_segments r (pyStrip l)

theorem foldl_parsePromptStep_segments (lines : List PyStr) :
    ∀ acc : EditPlan,
      (lines.foldl parsePromptStep acc).segments =
        acc.segments
          ++ ((lines.filter isKeepLine).map (fun l => parseKeepClause (pyStrip l))).flatten := by
  induction lines with
  | nil => intro acc; simp
  | cons l rest ih =>
    intro acc
    rw [List.foldl_cons, ih]
    by_cases h : isKeepLine l = true
    · rw [List.filter_cons_of_pos h]
      simp [parsePromptStep_segments, h, List.append_assoc]
    · simp only [Bool.not_eq_true] at h
      rw [List.filter_cons_of_neg (by simp [h])]
      simp [parsePromptStep_segments, h]

theorem keepSegsAux_index_lt (parts : List PyStr) :
    ∀ i : Nat, ∀ seg ∈ keepSegsAux i parts, (i : Int) < seg.index := by
  induction parts with
  | nil => intro i seg h; simp [keepSegsAux] at h
  | cons p rest ih =>
    intro i seg h
    unfold keepSegsAux at h
    have step : seg ∈ keepSegsAux (i + 1) rest → (i : Int) < seg.index := by
      intro hm
      have := ih (i + 1) seg hm
      push_cast at this ⊢
      linarith
    split at h
    · split at h
      · rcases List.mem_cons.mp h with rfl | hm
        · simp
        · exact step hm
      · exact step h
    · exact step h

theorem keepSegsAux_index_sorted (parts : List PyStr) :
    ∀ i : Nat, ((keepSegsAux i parts).map Segment.index).Sorted (· < ·) := by
  induction parts with
  | nil => intro i; simp [keepSegsAux]
  | cons p rest ih =>
    intro i
    unfold keepSegsAux
    split
    · split
      · simp only [List.map_cons]
        refine List.sorted_cons.mpr ⟨?_, ih (i + 1)⟩
        intro b hb
        simp only [List.mem_map] at hb
        obtain ⟨seg, hseg, rfl⟩ := hb
        have := keepSegsAux_index_lt rest (i + 1) seg hseg
        push_cast at this ⊢
        linarith
      · exact ih (i + 1)
    · exact ih (i + 1)

/-! ### Consistency-guard lemmas -/

theorem headRetryAux_spec (probe : Nat → ProbeResult) :
    ∀ (n i : Nat) (delay : ℚ),
      (headRetryAux probe i delay n).probes ≤ n ∧
      (∃ t, (headRetryAux probe i delay n).sleeps ++ t = delaySchedule delay n) ∧
      ((headRetryAux probe i delay n).outcome = HeadOutcome.notVisible →
        (headRetryAux probe i delay n).probes = n ∧
        (headRetryAux probe i delay n).sleeps.length = n) ∧
      ((headRetryAux probe i delay n).outcome ≠ HeadOutcome.notVisible →
        1 ≤ (headRetryAux probe i delay n).probes ∧
        (headRetryAux probe i delay n).sleeps.length =
          (headRetryAux probe i delay n).probes - 1) ∧
      (∀ k, k < (headRetryAux probe i delay n).sleeps.length →
        ∃ c, probe (i + k) = ProbeResult.clientError c ∧ c ∈ notFoundCodes) ∧
      ((headRetryAux probe i delay n).outcome = HeadOutcome.success →
        probe (i + ((headRetryAux probe i delay n).probes - 1)) = ProbeResult.ok) ∧
      (∀ c, (headRetryAux probe i delay n).outcome = HeadOutcome.raised c →
        probe (i + ((headRetryAux probe i delay n).probes - 1)) = ProbeResult.clientError c
          ∧ c ∉ notFoundCodes) := by
  intro n
  induction n with
  | zero =>
    intro i delay
    refine ⟨le_refl 0, ⟨[], rfl⟩, fun _ => ⟨rfl, rfl⟩, fun h => absurd rfl h, ?_, ?_, ?_⟩
    · intro k hk; simp [headRetryAux] at hk
    · intro h; simp [headRetryAux] at h
    · intro c h; simp [headRetryAux] at h
  | succ n ih =>
    intro i delay
    unfold headRetryAux
    cases hp : probe i with
    | ok =>
      refine ⟨by simp, ⟨delaySchedule delay (n + 1), rfl⟩, by simp, fun _ => by simp, ?_, ?_, ?_⟩
      · intro k hk; simp at hk
      · intro _; simpa using hp
      · intro c h; simp at h
    | clientError code =>
      by_cases hc : code ∈ notFoundCodes
      · simp only [hc, if_true]
        obtain ⟨ih1, ⟨t, ih2⟩, ih3, ih4, ih5, ih6, ih7⟩ := ih (i + 1) (min (delay * 2) 3)
        refine ⟨by simpa using Nat.succ_le_succ ih1, ⟨t, ?_⟩, ?_, ?_, ?_, ?_, ?_⟩
        · simpa [delaySchedule] using ih2
        · intro h
          obtain ⟨hpr, hsl⟩ := ih3 h
          simp [hpr, hsl]
        · intro h
          constructor
          · omega
          · rcases Decidable.em
              ((headRetryAux probe (i + 1) (min (delay * 2) 3) n).outcome
                = HeadOutcome.notVisible) with hnv | hnv
            · exact absurd hnv h
            · obtain ⟨hge, hlen⟩ := ih4 hnv
              simp only [List.length_cons, hlen]
              omega
        · intro k hk
          simp only [List.length_cons] at hk
          cases k with
          | zero => exact ⟨code, by simpa using hp, hc⟩
          | succ k' =>
            have hk' : k' < (headRetryAux probe (i + 1) (min (delay * 2) 3) n).sleeps.length := by
              simpa using Nat.lt_of_succ_lt_succ hk
            obtain ⟨c, hc1, hc2⟩ := ih5 k' hk'
            refine ⟨c, ?_, hc2⟩
            have harg : i + (k' + 1) = (i + 1) + k' := by omega
            rw [harg]
            exact hc1
        · intro h
          have hone : 1 ≤ (headRetryAux probe (i + 1) (min (delay * 2) 3) n).probes := by
            rcases Decidable.em
              ((headRetryAux probe (i + 1) (min (delay * 2) 3) n).outcome
                = HeadOutcome.notVisible) with hnv | hnv
            · rw [h] at hnv; cases hnv
            · exact (ih4 hnv).1
          have harg : i + ((headRetryAux probe (i + 1) (min (delay * 2) 3) n).probes + 1 - 1)
              = (i + 1) + ((headRetryAux probe (i + 1) (min (delay * 2) 3) n).probes - 1) := by
            omega
          rw [harg]
          exact ih6 h
        · intro c h
          have hone : 1 ≤ (headRetryAux probe (i + 1) (min (delay * 2) 3) n).probes := by
            rcases Decidable.em
              ((headRetryAux probe (i + 1) (min (delay * 2) 3) n).outcome
                = HeadOutcome.notVisible) with hnv | hnv
            · rw [h] at hnv; cases hnv
            · exact (ih4 hnv).1
          have harg : i + ((headRetryAux probe (i + 1) (min (delay * 2) 3) n).probes + 1 - 1)
              = (i + 1) + ((headRetryAux probe (i + 1) (min (delay * 2) 3) n).probes - 1) := by
            omega
          rw [harg]
          exact ih7 c h
      · simp only [hc, if_false]
        refine ⟨by simp, ⟨delaySchedule delay (n + 1), rfl⟩, by simp, fun _ => by simp, ?_, ?_, ?_⟩
        · intro k hk; simp at hk
        · intro h; simp at h
        · intro c h
          simp only [HeadOutcome.raised.injEq] at h
          subst h
          exact ⟨by simpa using hp, hc⟩

theorem headRetryAux_probes_pos (probe : Nat → ProbeResult) (n i : Nat) (delay : ℚ) :
    0 < (headRetryAux probe i delay (n + 1)).probes := by
  unfold headRetryAux
  cases probe i with
  | ok => simp
  | clientError code =>
    by_cases hc : code ∈ notFoundCodes
    · simp [hc]
    · simp [hc]

theorem headRetryAux_congr (probe probe2 : Nat → ProbeResult) :
    ∀ (n i : Nat) (delay : ℚ),
      (∀ j, j < (headRetryAux probe i delay n).probes → probe2 (i + j) = probe (i + j)) →
      headRetryAux probe2 i delay n = headRetryAux probe i delay n := by
  intro n
  induction n with
  | zero => intro i delay _; rfl
  | succ n ih =>
    intro i delay hagree
    have h0 : probe2 i = probe i := by
      have := hagree 0 (headRetryAux_probes_pos probe n i delay)
      simpa using this
    unfold headRetryAux
    rw [h0]
    cases hp : probe i with
    | ok => rfl
    | clientError code =>
      by_cases hc : code ∈ notFoundCodes
      · simp only [hc, if_true]
        have hprobes : (headRetryAux probe i delay (n + 1)).probes
            = (headRetryAux probe (i + 1) (min (delay * 2) 3) n).probes + 1 := by
          simp only [headRetryAux, hp, hc, if_true]
        have hrec : headRetryAux probe2 (i + 1) (min (delay * 2) 3) n
            = headRetryAux probe (i + 1) (min (delay * 2) 3) n := by
          apply ih
          intro j hj
          have harg : (i + 1) + j = i + (j + 1) := by omega
          rw [harg]
          apply hagree
          rw [hprobes]
          omega
        rw [hrec]
      · simp [hc]

theorem parsePromptBranchE_ok (r : EditPlan) (line : PyStr) :
    parsePromptBranchE r line = Except.ok (parsePromptBranch r line) := by
  unfold parsePromptBranchE parsePromptBranch
  cases h1 : pyStartswith "keep:".toList (pyLower line)
  · cases h2 : pyStartswith "order:".toList (pyLower line)
    · cases h3 : pyStartswith "output:".toList (pyLower line)
      · cases h4 : pyStartswith "quality:".toList (pyLower line)
        · simp
        · simp
      · simp
    · cases ho : ordListE (pyStrip (line.drop 6))
      · simp
      · simp
  · simp

theorem parsePromptStepE_ok (r : EditPlan) (l : PyStr) :
    parsePromptStepE r l = Except.ok (parsePromptStep r l) := by
  unfold parsePromptStepE parsePromptStep
  rw [parsePromptBranchE_ok]

theorem foldlM_parsePromptStepE (lines : List PyStr) :
    ∀ acc : EditPlan,
      lines.foldlM parsePromptStepE acc = Except.ok (lines.foldl parsePromptStep acc) := by
  induction lines with
  | nil => intro acc; rfl
  | cons l rest ih =>
    intro acc
    rw [List.foldlM_cons, parsePromptStepE_ok]
    exact ih (parsePromptStep acc l)

/-- C7: for every input string the directive parser terminates and
returns a plan without raising: the exception-explicit rendering of the
loop (`parsePromptE`), in which the `int()` failures inside the `order:`
branch raise and the bare `except: pass` catches, always ends in
`Except.ok` of the plan computed by `parse_prompt` — malformed keep
pairs, unparsable order integers and unrecognized clauses are dropped or
ignored, never propagated as errors. -/
theorem parse_prompt_never_raises (prompt_text : PyStr) :
    parsePromptE prompt_text = Except.ok (parse_prompt prompt_text) :=
  foldlM_parsePromptStepE _ _

/-- C6: on its default 6 attempts, the storage consistency guard (1) makes
at most 6 probes, (2) sleeps along the exponential-backoff schedule
0.4s, 0.8s, 1.6s then capped at 3.0s, (3) sleeps (retries) only after a
probe that failed with a "not found" error code, (4) ends `success` only
when its last probe succeeded, (5) ends by re-raising exactly when its
last probe failed with a non-"not found" code, with no sleep (no retry)
after it, (6) exhausts all 6 attempts before failing `ObjectNotVisible`,
and (7) never looks at probe outcomes past the probe it returned on. -/
theorem head_with_retry_guard (probe : Nat → ProbeResult) :
    (head_with_retry probe 6).probes ≤ 6 ∧
    (∃ t, (head_with_retry probe 6).sleeps ++ t = [2/5, 4/5, 8/5, 3, 3, 3]) ∧
    (∀ k, k < (head_with_retry probe 6).sleeps.length →
      ∃ c, probe k = ProbeResult.clientError c ∧ c ∈ notFoundCodes) ∧
    ((head_with_retry probe 6).outcome = HeadOutcome.success →
      probe ((head_with_retry probe 6).probes - 1) = ProbeResult.ok) ∧
    (∀ c, (head_with_retry probe 6).outcome = HeadOutcome.raised c →
      probe ((head_with_retry probe 6).probes - 1) = ProbeResult.clientError c ∧
      c ∉ notFoundCodes ∧
      (head_with_retry probe 6).sleeps.length = (head_with_retry probe 6).probes - 1) ∧
    ((head_with_retry probe 6).outcome = HeadOutcome.notVisible →
      (head_with_retry probe 6).probes = 6) ∧
    (∀ probe2 : Nat → ProbeResult,
      (∀ j, j < (head_with_retry probe 6).probes → probe2 j = probe j) →
      head_with_retry probe2 6 = head_with_retry probe 6) := by
  obtain ⟨h1, ⟨t, h2⟩, h3, h4, h5, h6, h7⟩ := headRetryAux_spec probe 6 0 (2/5)
  have hsched : delaySchedule (2/5) 6 = [2/5, 4/5, 8/5, 3, 3, 3] := by
    with_unfolding_all decide
  refine ⟨h1, ⟨t, by rw [← hsched]; exact h2⟩, ?_, ?_, ?_, ?_, ?_⟩
  · intro k hk
    obtain ⟨c, hc1, hc2⟩ := h5 k hk
    exact ⟨c, by simpa using hc1, hc2⟩
  · intro hs
    simpa using h6 hs
  · intro c hr
    obtain ⟨hc1, hc2⟩ := h7 c hr
    refine ⟨by simpa using hc1, hc2, ?_⟩
    have hnv : (head_with_retry probe 6).outcome ≠ HeadOutcome.notVisible := by
      rw [hr]; simp
    exact (h4 hnv).2
  · intro hnv
    exact (h3 hnv).1
  · intro probe2 hag
    apply headRetryAux_congr
    intro j hj
    simpa using hag j (by simpa using hj)

/-- Witness for C6: on the spec's scenario (not-found three times, then
success) the guard succeeds, with its last probe the successful one, and
within the attempt bound. -/
theorem head_with_retry_guard_witness :
    (head_with_retry exProbe 6).outcome = HeadOutcome.success ∧
    exProbe ((head_with_retry exProbe 6).probes - 1) = ProbeResult.ok ∧
    (head_with_retry exProbe 6).probes ≤ 6 :=
  ⟨by with_unfolding_all decide,
   (head_with_retry_guard exProbe).2.2.2.1 (by with_unfolding_all decide),
   (head_with_retry_guard exProbe).1⟩

/-- C3: timestamp resolution maps "90" to 90.0 seconds, "1:30" to 90.0
seconds and "01:01:30" to 3690.0 seconds, and fails on "1:2:3:4" — and in
general on any text with more than three colon-separated fields. -/
theorem ts_to_seconds_examples :
    ts_to_seconds "90".toList = some 90 ∧
    ts_to_seconds "1:30".toList = some 90 ∧
    ts_to_seconds "01:01:30".toList = some 3690 ∧
    ts_to_seconds "1:2:3:4".toList = none ∧
    (∀ t : PyStr, 3 < (pySplit ':' (pyStrip t)).length → ts_to_seconds t = none) := by
  refine ⟨by with_unfolding_all decide, by with_unfolding_all decide, ?_, by decide, ?_⟩
  · have hsplit : pySplit ':' (pyStrip "01:01:30".toList)
        = ["01".toList, "01".toList, "30".toList] := by decide
    have h01 : pyFloat "01".toList = some 1 := by with_unfolding_all decide
    have h30 : pyFloat "30".toList = some 30 := by with_unfolding_all decide
    unfold ts_to_seconds
    rw [hsplit]
    simp only [h01, h30, Option.bind_some, Option.some_bind]
    norm_num
  · intro t ht
    unfold ts_to_seconds
    split
    · rename_i s0 heq
      rw [heq] at ht; simp at ht
    · rename_i mm ss heq
      rw [heq] at ht; simp at ht
    · rename_i hh mm ss heq
      rw [heq] at ht; simp at ht
    · rfl

/-- Witness for C3's general failing-field-count clause at a concrete
five-field input. -/
theorem ts_to_seconds_examples_witness :
    3 < (pySplit ':' (pyStrip "5:5:5:5:5".toList)).length ∧
    ts_to_seconds "5:5:5:5:5".toList = none :=
  ⟨by decide, ts_to_seconds_examples.2.2.2.2 _ (by decide)⟩

/-- C4 counterexample: timestamp resolution succeeds on "-5" — Python
`float("-5")` parses — and returns -5.0, a negative number of seconds,
so "every successfully resolved timestamp is non-negative" is false. -/
theorem ts_to_seconds_negative_counterexample :
    ts_to_seconds "-5".toList = some (-5) ∧ ¬ (0 ≤ (-5 : ℚ)) :=
  ⟨by with_unfolding_all decide, by norm_num⟩

/-- C4 (amended): whenever every colon-separated field of the (stripped)
timestamp resolves to a non-negative number, the resolved seconds value
is non-negative; malformed timestamp text still fails resolution rather
than producing a value. -/
theorem ts_to_seconds_nonneg (t : PyStr) (q : ℚ)
    (h : ts_to_seconds t = some q)
    (hfields : ∀ f ∈ pySplit ':' (pyStrip t), ∀ x : ℚ, pyFloat f = some x → 0 ≤ x) :
    0 ≤ q := by
  unfold ts_to_seconds at h
  split at h
  · rename_i s0 heq
    exact hfields s0 (by rw [heq]; simp) q h
  · rename_i mm ss heq
    cases ha : pyFloat mm with
    | none => rw [ha] at h; simp at h
    | some m =>
      rw [ha] at h
      cases hb : pyFloat ss with
      | none => rw [hb] at h; simp at h
      | some s =>
        rw [hb] at h
        simp at h
        have hm := hfields mm (by rw [heq]; simp) m ha
        have hs := hfields ss (by rw [heq]; simp) s hb
        have h60 : (0 : ℚ) ≤ m * 60 := by positivity
        linarith [h]
  · rename_i hh mm ss heq
    cases ha : pyFloat hh with
    | none => rw [ha] at h; simp at h
    | some x1 =>
      rw [ha] at h
      cases hb : pyFloat mm with
      | none => rw [hb] at h; simp at h
      | some x2 =>
        rw [hb] at h
        cases hc : pyFloat ss with
        | none => rw [hc] at h; simp at h
        | some x3 =>
          rw [hc] at h
          simp at h
          have h1 := hfields hh (by rw [heq]; simp) x1 ha
          have h2 := hfields mm (by rw [heq]; simp) x2 hb
          have h3 := hfields ss (by rw [heq]; simp) x3 hc
          have hA : (0 : ℚ) ≤ x1 * 3600 := by positivity
          have hB : (0 : ℚ) ≤ x2 * 60 := by positivity
          linarith [h]
  · cases h

/-- Witness for C4 (amended) at "1:30": both fields resolve non-negative
and the result 90.0 is non-negative. -/
theorem ts_to_seconds_nonneg_witness :
    ts_to_seconds "1:30".toList = some 90 ∧ 0 ≤ (90 : ℚ) := by
  refine ⟨by with_unfolding_all decide, ?_⟩
  refine ts_to_seconds_nonneg "1:30".toList 90 (by with_unfolding_all decide) ?_
  intro f hf x hx
  have hsp : pySplit ':' (pyStrip "1:30".toList) = [['1'], ['3', '0']] := by decide
  rw [hsp] at hf
  simp only [List.mem_cons, List.not_mem_nil, or_false] at hf
  rcases hf with rfl | rfl
  · have h1 : pyFloat ['1'] = some 1 := by with_unfolding_all decide
    rw [h1] at hx
    injection hx with hx
    rw [← hx]
    norm_num
  · have h30 : pyFloat ['3', '0'] = some 30 := by with_unfolding_all decide
    rw [h30] at hx
    injection hx with hx
    rw [← hx]
    norm_num

/-- C5 counterexample: for the prompt 'Keep: 0-1.5' the clause splitter
cuts at the '.', the parser emits one segment whose end text is "1", and
that end resolves to 1.0 — not 1.5: no segment of this prompt retains
the fractional part. -/
theorem fractional_end_lost :
    (parse_prompt "Keep: 0-1.5".toList).segments.map (fun seg => ts_to_seconds seg.stop)
      = [some 1] ∧
    (1 : ℚ) ≠ 3 / 2 :=
  ⟨by with_unfolding_all decide, by norm_num⟩

/-- C5 (amended): timestamp resolution itself does retain fractional
seconds (`ts_to_seconds "1.5" = 1.5`), but because `parse_prompt` splits
the prompt into clauses on every '.', the prompt 'Keep: 0-1.5' parses to
a single segment with end text "1": a fractional timestamp cannot reach
resolution through a prompt. -/
theorem fractional_seconds_resolution_only :
    ts_to_seconds "1.5".toList = some (3 / 2) ∧
    (parse_prompt "Keep: 0-1.5".toList).segments
      = [{ index := 1, start := "0".toList, stop := "1".toList }] :=
  ⟨by with_unfolding_all decide, by decide⟩

/-- C2 counterexample: a prompt with two `keep:` clauses — each clause
restarts `enumerate` at 0, so both segments get index 1 — yields
duplicate segment indices, refuting index uniqueness for plans parsed
from prompts with more than one `keep:` clause. -/
theorem duplicate_indices_counterexample :
    (parse_prompt "Keep: 0-10. Keep: 20-30".toList).segments.map Segment.index = [1, 1] ∧
    ¬ ((parse_prompt "Keep: 0-10. Keep: 20-30".toList).segments.map Segment.index).Nodup :=
  ⟨by decide, by decide⟩

/-- C2 (amended): for every prompt containing at most one clause that the
parser classifies as a `keep:` clause, the parsed plan's segment indices
are pairwise distinct (within one clause they are strictly increasing). -/
theorem index_nodup_of_single_keep (s : PyStr)
    (h : (pySplit '.' (pyStrip s)).countP isKeepLine ≤ 1) :
    ((parse_prompt s).segments.map Segment.index).Nodup := by
  have hseg := foldl_parsePromptStep_segments (pySplit '.' (pyStrip s)) initPlan
  unfold parse_prompt
  rw [hseg]
  rw [List.countP_eq_length_filter] at h
  rcases hf : (pySplit '.' (pyStrip s)).filter isKeepLine with _ | ⟨l, rest⟩
  · simp [initPlan]
  · have hrest : rest = [] := by
      rw [hf] at h
      simp only [List.length_cons] at h
      exact List.length_eq_zero.mp (by omega)
    subst hrest
    simp only [initPlan, List.nil_append, List.map_cons, List.map_nil,
      List.flatten_cons, List.flatten_nil, List.append_nil]
    exact List.Pairwise.imp (fun hlt => ne_of_lt hlt)
      (keepSegsAux_index_sorted ((pySplit ',' (pyStrip ((pyStrip l).drop 5))).map pyStrip) 0)

/-- Witness for C2 (amended) at a single-keep prompt with two segments:
indices [1, 2] are distinct. -/
theorem index_nodup_of_single_keep_witness :
    (pySplit '.' (pyStrip "Keep: 0-10, 10-20".toList)).countP isKeepLine ≤ 1 ∧
    ((parse_prompt "Keep: 0-10, 10-20".toList).segments.map Segment.index).Nodup :=
  ⟨by decide, index_nodup_of_single_keep _ (by decide)⟩

/-- C1, evaluated at the failing input: for the prompt
'Keep: 0-10, 10-20. Order: 2,1.' the default-order assignment
(server.py:773), indented inside the clause loop, runs on every iteration
and clobbers the parsed `Order:` clause.  The plan that reaches
validation carries order [1, 2] — not the claimed [2, 1] — and the
validated (ordered, resolved) sequence is declaration order
(0,10),(10,20), not the claimed (10,20),(0,10). -/
theorem order_clause_clobbered :
    (parse_prompt "Keep: 0-10, 10-20. Order: 2,1.".toList).order = [1, 2] ∧
    (parse_prompt "Keep: 0-10, 10-20. Order: 2,1.".toList).order ≠ [2, 1] ∧
    orderedOf (parse_prompt "Keep: 0-10, 10-20. Order: 2,1.".toList)
      = [{ index := 1, start := "0".toList, stop := "10".toList },
         { index := 2, start := "10".toList, stop := "20".toList }] ∧
    (orderedOf (parse_prompt "Keep: 0-10, 10-20. Order: 2,1.".toList)).map resolveSeg
      = [(0, 10), (10, 20)] ∧
    (orderedOf (parse_prompt "Keep: 0-10, 10-20. Order: 2,1.".toList)).map resolveSeg
      ≠ [(10, 20), (0, 10)] := by
  refine ⟨by decide, by decide, by decide, ?_, ?_⟩
  · with_unfolding_all decide
  · with_unfolding_all decide

/-- C9: for an ordered segment list whose timestamps all resolve with
`end > start`, filter-graph compilation succeeds and produces exactly one
video-trim and one audio-trim operation per segment, in compiled order
and numbered by position (each trim op carries its own
`setpts=PTS-STARTPTS` reset, see `FilterOp`), followed by the single
concatenation whose inputs are precisely the n `[v i][a i]` pairs in
order.  Compilation is a pure function of the plan, so the same validated
plan always yields this identical instruction sequence. -/
theorem buildFilter_shape (ordered : List Segment)
    (h : ∀ seg ∈ ordered, ∃ s e : ℚ, ts_to_seconds seg.start = some s ∧
      ts_to_seconds seg.stop = some e ∧ s < e) :
    buildFilter ordered =
      Except.ok (trimOpsSpec 0 (ordered.map resolveSeg),
        concatInputsSpec 0 ordered.length) := by
  suffices haux : ∀ (segs : List Segment) (i : Nat),
      (∀ seg ∈ segs, ∃ s e : ℚ, ts_to_seconds seg.start = some s ∧
        ts_to_seconds seg.stop = some e ∧ s < e) →
      buildFilterAux i segs =
        Except.ok (trimOpsSpec i (segs.map resolveSeg), concatInputsSpec i segs.length) by
    exact haux ordered 0 h
  intro segs
  induction segs with
  | nil => intro i _; rfl
  | cons seg rest ih =>
    intro i hall
    obtain ⟨s, e, hs, he, hlt⟩ := hall seg (List.mem_cons_self _ _)
    unfold buildFilterAux
    simp only [hs, he]
    rw [if_neg (not_le_of_lt hlt),
      ih (i + 1) (fun sg hsg => hall sg (List.mem_cons_of_mem _ hsg))]
    simp [trimOpsSpec, concatInputsSpec, resolveSeg, hs, he]

/-- Witness for C9 at a concrete two-segment plan. -/
theorem buildFilter_shape_witness :
    buildFilter [{ index := 1, start := "0".toList, stop := "10".toList },
                 { index := 2, start := "10".toList, stop := "20".toList }] =
      Except.ok ([FilterOp.vtrim 0 0 10, FilterOp.atrim 0 0 10,
                  FilterOp.vtrim 1 10 20, FilterOp.atrim 1 10 20], [0, 1]) := by
  have h := buildFilter_shape
    [{ index := 1, start := "0".toList, stop := "10".toList },
     { index := 2, start := "10".toList, stop := "20".toList }]
    (by
      intro seg hseg
      simp only [List.mem_cons, List.not_mem_nil, or_false] at hseg
      rcases hseg with rfl | rfl
      · exact ⟨0, 10, by with_unfolding_all decide, by with_unfolding_all decide,
          by norm_num⟩
      · exact ⟨10, 20, by with_unfolding_all decide, by with_unfolding_all decide,
          by norm_num⟩)
  refine h.trans (congrArg Except.ok ?_)
  with_unfolding_all decide

theorem processJobBody_ok_done (env : Env) (job_id : PyStr) (job : Job) (u : JobUpdate)
    (h : processJobBody env job_id job = Except.ok u) :
    u.status = JobStatus.done ∧ u.error_message = none := by
  unfold processJobBody at h
  repeat' split at h
  all_goals first
    | (obtain rfl := Except.ok.inj h; exact ⟨rfl, rfl⟩)
    | exact absurd h (by simp)

/-- C8: once the job record is found, every error raised inside the run
body is caught at the lifecycle boundary: the run performs exactly the
`processing` update followed by one terminal update, which is either
`done` (no error message) or `failed` with a message — no exception
escapes `process_job`.  In particular, when every step up to the
transcoder succeeds and ffmpeg exits non-zero, the job ends `failed` with
`error_message` exactly `"ffmpeg failed: "` plus the first 2000
characters of the captured diagnostics (a bounded excerpt). -/
theorem process_job_error_boundary (env : Env) (job_id : PyStr) (job : Job)
    (hjob : env.jobs job_id = some job) :
    (∃ u, (process_job env job_id).updates = [processingUpdate, u] ∧
      ((u.status = JobStatus.done ∧ u.error_message = none) ∨
       (u.status = JobStatus.failed ∧ ∃ m, u.error_message = some m))) ∧
    (∀ video, env.videos job.video_id = some video →
      (job.parsed_prompt.getD emptyParsed).segments.isEmpty = false →
      (orderedOf (job.parsed_prompt.getD emptyParsed)).isEmpty = false →
      (head_with_retry env.headProbe 6).outcome = HeadOutcome.success →
      env.download = Except.ok () →
      env.downloadOk = true →
      (∃ fg, buildFilter (orderedOf (job.parsed_prompt.getD emptyParsed)) = Except.ok fg) →
      env.ffmpegExit ≠ 0 →
      (process_job env job_id).updates = [processingUpdate,
        { status := JobStatus.failed,
          error_message := some ("ffmpeg failed: ".toList ++ env.ffmpegStderr.take 2000),
          output_key := none }] ∧
      (env.ffmpegStderr.take 2000).length ≤ 2000) := by
  constructor
  · cases hb : processJobBody env job_id job with
    | ok u =>
      obtain ⟨h1, h2⟩ := processJobBody_ok_done env job_id job u hb
      refine ⟨u, ?_, Or.inl ⟨h1, h2⟩⟩
      simp [process_job, hjob, hb]
    | error e =>
      refine ⟨{ status := JobStatus.failed, error_message := some e, output_key := none },
        ?_, Or.inr ⟨rfl, e, rfl⟩⟩
      simp [process_job, hjob, hb]
  · rintro video hv hseg hord hhead hdl hdlok ⟨fg, hfg⟩ hff
    have hbody : processJobBody env job_id job =
        Except.error ("ffmpeg failed: ".toList ++ env.ffmpegStderr.take 2000) := by
      simp [processJobBody, hv, hseg, hord, hhead, hdl, hdlok, hfg, hff]
    refine ⟨?_, ?_⟩
    · simp [process_job, hjob, hbody]
    · rw [List.length_take]
      omega

/-- Witness for C8 in the environment where every step up to ffmpeg
succeeds and ffmpeg exits 1 with diagnostics "boom". -/
theorem process_job_error_boundary_witness :
    (process_job exEnvFfmpegFail "job1".toList).updates = [processingUpdate,
      { status := JobStatus.failed,
        error_message := some ("ffmpeg failed: boom".toList),
        output_key := none }] := by
  have h := (process_job_error_boundary exEnvFfmpegFail "job1".toList exJob rfl).2
    exVideo rfl (by decide) (by decide) (by with_unfolding_all decide) rfl rfl
    ⟨([FilterOp.vtrim 0 0 10, FilterOp.atrim 0 0 10], [0]), by with_unfolding_all decide⟩
    (by decide)
  exact h.1.trans (by decide)

/-- C10: a run invoked with a job_id for which no job record exists
returns immediately: no job-record update is performed (in particular no
`failed` record appears), the metrics counter is untouched, and no
exception reaches the invoker. -/
theorem process_job_missing_job (env : Env) (job_id : PyStr)
    (h : env.jobs job_id = none) :
    process_job env job_id = { updates := [], metricsIncremented := false } := by
  unfold process_job
  rw [h]

/-- Witness for C10 in an environment with no job records. -/
theorem process_job_missing_job_witness :
    noJobEnv.jobs "j".toList = none ∧
    process_job noJobEnv "j".toList = { updates := [], metricsIncremented := false } :=
  ⟨rfl, process_job_missing_job noJobEnv "j".toList rfl⟩
